import Mathlib

/-!
Verification of the pod-remediation diagnostics harness (src/pods.py).

The embedding models strings as Lean `String`s (operating on their
underlying `List Char`), shell command results as explicit records, and
fallible Python code as `Except`.  All recursive scanners are written with
explicit fuel so that every definition reduces in the kernel (`decide`/`rfl`
work on concrete inputs).  Python library semantics that the source relies
on (`str.replace`, `str.split`, `str.strip`, `re.sub`, `subprocess.run`,
`requests`) are reproduced faithfully by the helper functions below.
-/

/-- Whitespace characters stripped by Python's `str.strip()` (ASCII set). -/
def pyIsSpace (c : Char) : Bool :=
  c = ' ' || c = '\t' || c = '\n' || c = '\r' || c = '\x0b' || c = '\x0c'

/-- Characters matched by the regex class `[A-Z_]`. -/
def isUpperUnd (c : Char) : Bool :=
  ('A' ≤ c && c ≤ 'Z') || c = '_'

/-- Characters matched by the regex class `[a-z_]`. -/
def isLowerUnd (c : Char) : Bool :=
  ('a' ≤ c && c ≤ 'z') || c = '_'

/-- Python `str.strip()` on a character list: drop leading and trailing
whitespace. -/
def pyStripList (cs : List Char) : List Char :=
  ((cs.dropWhile pyIsSpace).reverse.dropWhile pyIsSpace).reverse

/-- Python `str.strip()`. -/
def pyStrip (s : String) : String :=
  String.mk (pyStripList s.data)

/-- Python `str.split('\n')`: split on every newline, keeping empty pieces,
always returning at least one piece. -/
def splitLines : List Char → List (List Char)
  | [] => [[]]
  | c :: cs =>
    if c = '\n' then [] :: splitLines cs
    else
      match splitLines cs with
      | [] => [[c]]
      | l :: ls => (c :: l) :: ls

/-- Match a literal character sequence `ls` as a prefix of `cs`, returning
the remainder on success. -/
def matchLit : List Char → List Char → Option (List Char)
  | [], cs => some cs
  | _ :: _, [] => none
  | l :: ls, c :: cs => if c = l then matchLit ls cs else none

/-- Greedy span: the maximal prefix of characters satisfying `p`, plus the
remainder (regex `X+` semantics with maximal munch). -/
def charSpan (p : Char → Bool) : List Char → List Char × List Char
  | [] => ([], [])
  | c :: cs =>
    if p c then
      let r := charSpan p cs
      (c :: r.1, r.2)
    else ([], c :: cs)

/-- Does `pat` occur as a contiguous sublist of `cs`?  (Python `in` /
`str.find` reachability; used for the scan positions of `str.replace`.) -/
def occursIn (pat : List Char) : List Char → Bool
  | [] => pat.isEmpty
  | c :: cs => (matchLit pat (c :: cs)).isSome || occursIn pat cs

/-- Python `s.replace("", repl)`: the replacement is inserted before every
character and at the end. -/
def interleaveRepl (repl : List Char) : List Char → List Char
  | [] => repl
  | c :: cs => repl ++ c :: interleaveRepl repl cs

/-- Scanner for Python `str.replace` with a non-empty pattern `p0 :: ps`:
left-to-right, non-overlapping, resuming after each replacement.  `fuel`
bounds the scan (one unit per consumed character); callers pass the subject
length, which always suffices. -/
def repGo (p0 : Char) (ps repl : List Char) : Nat → List Char → List Char
  | 0, cs => cs
  | _ + 1, [] => []
  | fuel + 1, c :: cs =>
    match matchLit (p0 :: ps) (c :: cs) with
    | some rest => repl ++ repGo p0 ps repl fuel rest
    | none => c :: repGo p0 ps repl fuel cs

/-- Python `subject.replace(pat, repl)` (all occurrences). -/
def pyReplace (subject pat repl : String) : String :=
  match pat.data with
  | [] => String.mk (interleaveRepl repl.data subject.data)
  | p0 :: ps => String.mk (repGo p0 ps repl.data subject.data.length subject.data)

/-- Literal piece of the block regex before the first name run. -/
def sHdr : List Char := ['-', '-', '-', ' ']

/-- Literal piece between the block label and the placeholder name,
ending with the opening brace. -/
def sMid : List Char := [' ', '-', '-', '-', '\n', '\x7b']

/-- Literal piece from the closing brace to the END label. -/
def sEnd1 : List Char := ['\x7d', '\n', '-', '-', '-', ' ', 'E', 'N', 'D', ' ']

/-- Trailing literal piece of the block regex. -/
def sFtr : List Char := [' ', '-', '-', '-']

/-- Match, at the head of `cs`, the regex used at src/pods.py line 111 to
delete unfilled template blocks.  The three `+`-classes are followed by a
character outside the class in the pattern, so greedy maximal munch with no
backtracking is equivalent to the regex engine's behaviour. -/
def matchBlock (cs : List Char) : Option (List Char) :=
  match matchLit sHdr cs with
  | none => none
  | some cs1 =>
    match charSpan isUpperUnd cs1 with
    | ([], _) => none
    | (_ :: _, cs1') =>
      match matchLit sMid cs1' with
      | none => none
      | some cs2 =>
        match charSpan isLowerUnd cs2 with
        | ([], _) => none
        | (_ :: _, cs2') =>
          match matchLit sEnd1 cs2' with
          | none => none
          | some cs3 =>
            match charSpan isUpperUnd cs3 with
            | ([], _) => none
            | (_ :: _, cs3') => matchLit sFtr cs3'

/-- Scanner for `re.sub(block_pattern, '', s)`: try the pattern at each
position, delete matches, continue after each match. -/
def subGo : Nat → List Char → List Char
  | 0, cs => cs
  | _ + 1, [] => []
  | fuel + 1, c :: cs =>
    match matchBlock (c :: cs) with
    | some rest => subGo fuel rest
    | none => c :: subGo fuel cs

/-- The `re.sub(r'--- [A-Z_]+ ---\n\x7b[a-z_]+\x7d\n--- END [A-Z_]+ ---', '', prompt)`
call of src/pods.py line 111. -/
def stripUnfilledBlocks (s : String) : String :=
  String.mk (subGo s.data.length s.data)

/-- Placeholder-shape matcher: an opening brace, a non-empty `[a-z_]+` run,
and a closing brace, at the head of `cs`. -/
def matchPlaceholderShape (cs : List Char) : Option (List Char) :=
  match cs with
  | '\x7b' :: cs1 =>
    let r := charSpan isLowerUnd cs1
    if r.1 = [] then none
    else
      match r.2 with
      | '\x7d' :: rest => some rest
      | _ => none
  | _ => none

/-- Does the string contain any placeholder-shaped substring? -/
def hasPlaceholder : List Char → Bool
  | [] => false
  | c :: cs => (matchPlaceholderShape (c :: cs)).isSome || hasPlaceholder cs

/-- String-level wrapper for `occursIn`. -/
def strOccurs (s pat : String) : Bool := occursIn pat.data s.data

/-- String-level wrapper for `hasPlaceholder`. -/
def strHasPlaceholder (s : String) : Bool := hasPlaceholder s.data

/-- The sentinel context key that selects single-substitution mode in
`reason_llm` (src/pods.py line 103). -/
def sentinelKey : String := "kubectl_get_pod_output"

/-- Python `key in dict` on the ordered-pair representation of a dict. -/
def dictContains (d : List (String × String)) (k : String) : Bool :=
  d.any (fun e => e.1 = k)

/-- Python `dict[key]` (keys are unique in a Python dict, so the first
match is the binding); total with default `""`, callers check membership. -/
def dictGet (d : List (String × String)) (k : String) : String :=
  ((d.find? (fun e => e.1 = k)).map (fun e => e.2)).getD ""

/-- The placeholder text for a context key: the key wrapped in braces
(src/pods.py line 108). -/
def placeholderOf (k : String) : String := "\x7b" ++ k ++ "\x7d"

/-- Prompt assembly: the prompt-construction part of `reason_llm`
(src/pods.py lines 99-111).  If the sentinel key is present, exactly its
placeholder is substituted; otherwise every pair is substituted in package
order and the unfilled-block regex deletion runs.  The trailing `call_llm`
of `reason_llm` is modelled separately. -/
def assemble (context_package : List (String × String)) (prompt_template : String) : String :=
  if dictContains context_package sentinelKey then
    pyReplace prompt_template (placeholderOf sentinelKey) (dictGet context_package sentinelKey)
  else
    stripUnfilledBlocks
      (context_package.foldl (fun p kv => pyReplace p (placeholderOf kv.1) kv.2) prompt_template)

/-- Result of a finished shell command as captured by
`subprocess.run(command, shell=True, capture_output=True, text=True)`. -/
structure ProcResult where
  returncode : Int
  stdout : String
  stderr : String
deriving DecidableEq, Repr

/-- Semantics of Python `subprocess.run(..., check=check)`: the call raises
`CalledProcessError` exactly when `check` is true and the exit status is
non-zero; otherwise it returns the completed process. -/
def subprocess_run (r : ProcResult) (check : Bool) : Except ProcResult ProcResult :=
  if check ∧ r.returncode ≠ 0 then Except.error r else Except.ok r

/-- The command executor `run_command` (src/pods.py lines 20-32), applied to
the result of the external command it launched.  A raised
`CalledProcessError` carries the process record; the `except` branch
re-raises when `check` is true and otherwise returns the trimmed stderr. -/
def run_command (r : ProcResult) (check : Bool) : Except ProcResult String :=
  match subprocess_run r check with
  | Except.ok res => Except.ok (pyStrip res.stdout)
  | Except.error e => if check then Except.error e else Except.ok (pyStrip e.stderr)

/-- Tolerant-mode output of `run_command(cmd, check=False)`: total, since
`subprocess.run` with `check=False` never raises `CalledProcessError`. -/
def tolerantOut (r : ProcResult) : String :=
  pyStrip r.stdout

/-- Python values produced by `response.json()` (JSON objects have string
keys). -/
inductive PyVal where
  | str (s : String)
  | dict (entries : List (String × PyVal))
  | list (xs : List PyVal)
  | num (n : Int)

/-- Exceptions that can escape `call_llm`: everything that is not a
`requests.exceptions.RequestException`. -/
inductive PyExc where
  | keyError (k : String)
  | indexError
  | typeError
  | attributeError
deriving DecidableEq, Repr

/-- Outcome of the `requests.post` call inside `call_llm`: either a
transport-level failure (a `RequestException`, message abstracted), or an
HTTP response with a status code and a decoded JSON body (`none` when the
body is not decodable JSON; `requests` raises a `JSONDecodeError`, which is
a `RequestException`, in that case). -/
inductive HttpOutcome where
  | transportError (msg : String)
  | response (status : Nat) (body : Option PyVal)

/-- Lookup in a decoded JSON object. -/
def jsonLookup (entries : List (String × PyVal)) (k : String) : Option PyVal :=
  (entries.find? (fun e => e.1 = k)).map (fun e => e.2)

/-- Python `value[key]` / `value[0]` / `value.get(...)` chain of
src/pods.py lines 50-51, applied to the decoded response body:
`response_data["choices"][0].get("message", {}).get("content", default)`. -/
def extractContent (v : PyVal) : Except PyExc PyVal :=
  match v with
  | PyVal.dict entries =>
    match jsonLookup entries "choices" with
    | none => Except.error (PyExc.keyError "choices")
    | some (PyVal.list []) => Except.error PyExc.indexError
    | some (PyVal.list (c0 :: _)) =>
      match c0 with
      | PyVal.dict c0e =>
        match (jsonLookup c0e "message").getD (PyVal.dict []) with
        | PyVal.dict me =>
          match jsonLookup me "content" with
          | some content => Except.ok content
          | none => Except.ok (PyVal.str "Error: 'content' key not found in message.")
        | _ => Except.error PyExc.attributeError
      | _ => Except.error PyExc.attributeError
    | some (PyVal.dict _) => Except.error (PyExc.keyError "0")
    | some _ => Except.error PyExc.typeError
  | _ => Except.error PyExc.typeError

/-- The model client `call_llm` (src/pods.py lines 34-53) applied to the
outcome of its HTTP request.  `raise_for_status` raises an `HTTPError`
(a `RequestException`) for statuses 400-599; the `except` clause catches
exactly `RequestException` and formats it as text, so transport errors,
HTTP error statuses and undecodable bodies all become strings, while
structural errors while indexing the decoded body propagate. -/
def call_llm (outcome : HttpOutcome) : Except PyExc PyVal :=
  match outcome with
  | HttpOutcome.transportError m =>
    Except.ok (PyVal.str ("API Request Error: " ++ m))
  | HttpOutcome.response status body =>
    if 400 ≤ status ∧ status < 600 then
      Except.ok (PyVal.str ("API Request Error: HTTPError status " ++ toString status))
    else
      match body with
      | none => Except.ok (PyVal.str "API Request Error: JSONDecodeError")
      | some v => extractContent v

/-- First init-container name found by the scan at src/pods.py lines 78-87:
locate the exact line `Init Containers:`, then take the first later line
whose stripped form ends in a colon, with all colons removed; empty string
when nothing is found. -/
def linesAfterMarker (marker : List Char) : List (List Char) → Option (List (List Char))
  | [] => none
  | l :: ls => if l = marker then some ls else linesAfterMarker marker ls

/-- Scan the lines after the marker for the first line whose stripped form
ends with a colon; the name is that stripped line with every colon removed. -/
def firstColonName : List (List Char) → List Char
  | [] => []
  | l :: ls =>
    let t := pyStripList l
    if t.getLast? = some ':' then t.filter (fun c => c ≠ ':')
    else firstColonName ls

/-- The init-container-name heuristic of `perceive_context`
(src/pods.py lines 77-87). -/
def init_container_name (desc : String) : String :=
  match linesAfterMarker "Init Containers:".data (splitLines desc.data) with
  | none => ""
  | some rest => String.mk (firstColonName rest)

/-- The context collector `perceive_context` (src/pods.py lines 64-97),
with the external command runs abstracted into an executor
`exec : command → trimmed output` (every call uses `check=False`, which
never raises).  Returns the ordered context dict together with the list of
commands issued. -/
def perceive_context (ex : String → String) (pod_name classification : String) :
    List (String × String) × List String :=
  let desc_cmd := "kubectl describe pod " ++ pod_name
  let desc := ex desc_cmd
  let base := [("pod_description", desc)]
  if classification = "SchedulingFailure" then
    (base ++ [("node_descriptions", ex "kubectl describe nodes")],
     [desc_cmd, "kubectl describe nodes"])
  else if classification = "ImagePullFailure" then
    (base, [desc_cmd])
  else if classification = "ConfigurationFailure" then
    (base ++ [("configmaps_in_namespace", ex "kubectl get configmaps")],
     [desc_cmd, "kubectl get configmaps"])
  else if classification = "InitializationFailure" then
    let nm := init_container_name desc
    if nm ≠ "" then
      let log_cmd := "kubectl logs " ++ pod_name ++ " -c " ++ nm ++ " --previous"
      (base ++ [("init_container_logs", ex log_cmd)], [desc_cmd, log_cmd])
    else (base, [desc_cmd])
  else if classification = "RuntimeCrash" then
    let log_cmd := "kubectl logs " ++ pod_name ++ " --previous"
    (base ++ [("container_logs", ex log_cmd)], [desc_cmd, log_cmd])
  else if classification = "HealthCheckFailure" then
    let app_label := pyReplace (pyReplace pod_name "-pod" "") "bad-readiness-" "bad-readiness"
    let ep_cmd := "kubectl get endpoints -l app=" ++ app_label
    (base ++ [("service_endpoints", ex ep_cmd)], [desc_cmd, ep_cmd])
  else (base, [desc_cmd])

/-- Modelled from the spec: the additional-lookup column of the table in
section 4.1, as a list of context keys for a classification, given the
collected resource description (the InitializationFailure row adds its key
only when an init-container name is found in the description text). -/
def specTableKeys (classification desc : String) : List String :=
  if classification = "SchedulingFailure" then ["node_descriptions"]
  else if classification = "ImagePullFailure" then []
  else if classification = "ConfigurationFailure" then ["configmaps_in_namespace"]
  else if classification = "InitializationFailure" then
    if init_container_name desc ≠ "" then ["init_container_logs"] else []
  else if classification = "RuntimeCrash" then ["container_logs"]
  else if classification = "HealthCheckFailure" then ["service_endpoints"]
  else []

/-- Scan one `kubectl get pods -o name` output for the first line that,
with every `pod/` removed, starts with the pattern
(src/pods.py lines 220-223). -/
def scanPodsOutput (pattern : String) : List (List Char) → Option String
  | [] => none
  | line :: rest =>
    let pod_name := pyReplace (String.mk line) "pod/" ""
    if (matchLit pattern.data pod_name.data).isSome then some pod_name
    else scanPodsOutput pattern rest

/-- The bounded polling loop of `get_pod_name` (src/pods.py lines 218-225):
`attempts` tries remaining, `i` the index of the next poll. -/
def get_pod_name_loop (polls : Nat → String) (pattern : String) :
    Nat → Nat → Option String
  | 0, _ => none
  | attempts + 1, i =>
    match scanPodsOutput pattern (splitLines (polls i).data) with
    | some n => some n
    | none => get_pod_name_loop polls pattern attempts (i + 1)

/-- Resource identification `get_pod_name` (src/pods.py lines 215-225):
five polls of `kubectl get pods -o name` (outputs given by `polls`),
returning the first matching pod name, or `none` when the attempts are
exhausted (the sleeps have no observable effect in this model). -/
def get_pod_name (polls : Nat → String) (pattern : String) : Option String :=
  get_pod_name_loop polls pattern 5 0

/-- Full `reason_llm` (src/pods.py lines 99-113): assemble the prompt, then
call the model client on it (the HTTP outcome of the assembled prompt is
given by the oracle `http`). -/
def reason_llm (http : String → HttpOutcome) (context_package : List (String × String))
    (prompt_template : String) : Except PyExc PyVal :=
  call_llm (http (assemble context_package prompt_template))

/-- One scenario record of the `SCENARIOS` table (src/pods.py
lines 139-212). -/
structure Scenario where
  description : String
  manifest_filename : String
  pod_name_pattern : String
  pre_run_command : Option String := none
  post_run_command : Option String := none
  cleanup_kind : String
  cleanup_name : String
deriving DecidableEq, Repr

/-- The `SCENARIOS` dict (src/pods.py lines 139-212), in insertion order. -/
def SCENARIOS : List (String × Scenario) :=
  [("1_insufficient_cpu",
    { description := "A pod requests more CPU than any node can provide, causing a 'Pending' state.",
      manifest_filename := "1_insufficient_cpu.yaml",
      pod_name_pattern := "high-cpu-app-",
      cleanup_kind := "deployment", cleanup_name := "high-cpu-app" }),
   ("2_taint_toleration",
    { description := "A pod cannot be scheduled because it lacks a toleration for a taint applied to all available nodes.",
      manifest_filename := "2_taint_toleration.yaml",
      pre_run_command := some "kubectl taint nodes \x7bnode_name\x7d special-workload=true:NoSchedule",
      post_run_command := some "kubectl taint nodes \x7bnode_name\x7d special-workload=true:NoSchedule-",
      pod_name_pattern := "app-needs-toleration",
      cleanup_kind := "pod", cleanup_name := "app-needs-toleration" }),
   ("3_node_selector",
    { description := "A pod cannot be scheduled because its nodeSelector specifies a label that does not exist on any node.",
      manifest_filename := "3_node_selector.yaml",
      pod_name_pattern := "app-needs-label",
      cleanup_kind := "pod", cleanup_name := "app-needs-label" }),
   ("4_invalid_image_name",
    { description := "A pod enters ImagePullBackOff due to a typo in the container image name.",
      manifest_filename := "4_invalid_image_name.yaml",
      pod_name_pattern := "bad-image-pod",
      cleanup_kind := "pod", cleanup_name := "bad-image-pod" }),
   ("6_missing_configmap",
    { description := "A pod fails with CreateContainerConfigError because it references a ConfigMap that does not exist.",
      manifest_filename := "6_missing_configmap.yaml",
      pod_name_pattern := "app-needs-config",
      cleanup_kind := "pod", cleanup_name := "app-needs-config" }),
   ("7_failing_init_container",
    { description := "A pod is stuck in Init:CrashLoopBackOff because its initContainer fails repeatedly.",
      manifest_filename := "7_failing_init_container.yaml",
      pod_name_pattern := "app-with-failing-init",
      cleanup_kind := "pod", cleanup_name := "app-with-failing-init" }),
   ("8_app_logic_error",
    { description := "A pod enters CrashLoopBackOff because the application code exits with an error.",
      manifest_filename := "8_app_logic_error.yaml",
      pod_name_pattern := "buggy-app-pod",
      cleanup_kind := "pod", cleanup_name := "buggy-app-pod" }),
   ("9_oomkilled",
    { description := "A pod is terminated with OOMKilled because it consumes more memory than its limit.",
      manifest_filename := "9_oomkilled.yaml",
      pod_name_pattern := "oom-pod",
      cleanup_kind := "pod", cleanup_name := "oom-pod" }),
   ("10_bad_liveness_probe",
    { description := "A healthy pod enters CrashLoopBackOff because it is repeatedly killed by a misconfigured liveness probe.",
      manifest_filename := "10_bad_liveness_probe.yaml",
      pod_name_pattern := "bad-liveness-pod",
      cleanup_kind := "pod", cleanup_name := "bad-liveness-pod" }),
   ("11_bad_readiness_probe",
    { description := "A running pod does not receive traffic because its readiness probe is failing.",
      manifest_filename := "11_bad_readiness_probe.yaml",
      pod_name_pattern := "bad-readiness-pod",
      cleanup_kind := "pod", cleanup_name := "bad-readiness-pod" })]

/-- The classification prompt (src/pods.py lines 265-272). -/
def classificationPrompt : String :=
  "\nYou are an expert Kubernetes SRE. Classify the failure of the pod below into ONE of these categories:\nSchedulingFailure, ImagePullFailure, ConfigurationFailure, InitializationFailure, RuntimeCrash, HealthCheckFailure\n--- POD DATA ---\n\x7bkubectl_get_pod_output\x7d\n--- END POD DATA ---\nRespond with ONLY the category name.\n"

/-- The diagnosis prompt template (src/pods.py lines 280-314). -/
def diagnosisTemplate : String :=
  "\nYou are an expert Kubernetes SRE providing a detailed root cause analysis and remediation plan.\nAnalyze the following diagnostic data to determine the precise root cause of the failure.\n\n### DIAGNOSTIC CONTEXT PACKAGE START ###\n--- POD_DESCRIPTION ---\n\x7bpod_description\x7d\n--- END POD_DESCRIPTION ---\n\n--- NODE_DESCRIPTIONS ---\n\x7bnode_descriptions\x7d\n--- END NODE_DESCRIPTIONS ---\n\n--- CONFIGMAPS_IN_NAMESPACE ---\n\x7bconfigmaps_in_namespace\x7d\n--- END CONFIGMAPS_IN_NAMESPACE ---\n\n--- INIT_CONTAINER_LOGS ---\n\x7binit_container_logs\x7d\n--- END INIT_CONTAINER_LOGS ---\n\n--- CONTAINER_LOGS ---\n\x7bcontainer_logs\x7d\n--- END CONTAINER_LOGS ---\n\n--- SERVICE_ENDPOINTS ---\n\x7bservice_endpoints\x7d\n--- END SERVICE_ENDPOINTS ---\n### DIAGNOSTIC CONTEXT PACKAGE END ###\n\nProvide:\n1.  **Root Cause:** A concise explanation of the failure.\n2.  **Detailed Analysis:** An in-depth explanation of the evidence.\n3.  **Remediation Plan:** Step-by-step instructions with corrected YAML or commands.\n"

/-- What aborts a scenario (and the whole program, since `main` has no
try/finally): a `CalledProcessError` from a strict `run_command`, or a
non-`RequestException` escaping the LLM call path. -/
inductive ScenarioError where
  | cmdError (r : ProcResult)
  | llmError (e : PyExc)

/-- Python `cmd.format(node_name=node)` for the taint commands (the two
templates in `SCENARIOS` contain exactly one occurrence of the placeholder
and no other brace, so `str.format` coincides with replacement; `None`
formats as the text `None`). -/
def fmtNode (cmd : String) (node : Option String) : String :=
  pyReplace cmd "\x7bnode_name\x7d" (match node with | some n => n | none => "None")

/-- The cleanup deletion command issued at src/pods.py line 320. -/
def cleanupCmd (sc : Scenario) : String :=
  "kubectl delete " ++ sc.cleanup_kind ++ " " ++ sc.cleanup_name ++ " --grace-period=0 --force"

/-- The tail of the scenario loop body (src/pods.py lines 319-324): the
deletion command and the optional post-run command, both tolerant
(`check=False`), so this step never aborts. -/
def finishCleanup (node : Option String) (sc : Scenario) (log : List String) :
    List String × Option ScenarioError :=
  let log1 := log ++ [cleanupCmd sc]
  match sc.post_run_command with
  | none => (log1, none)
  | some c => (log1 ++ [fmtNode c node], none)

/-- The classification / context-collection / diagnosis stretch of a
scenario iteration (src/pods.py lines 263-317), entered once a pod has been
identified, followed by the cleanup tail.  A non-zero exit of the strict
`kubectl get pod` run, a non-`RequestException` escaping a model call, or a
non-string classification (whose `.strip()` raises `AttributeError`) aborts
before cleanup. -/
def scenarioClassifyOn (pe : String → ProcResult) (http : String → HttpOutcome)
    (node : Option String) (sc : Scenario) (pod_name : String) (log : List String) :
    List String × Option ScenarioError :=
  let getCmd := "kubectl get pod " ++ pod_name
  match run_command (pe getCmd) true with
  | Except.error r => (log ++ [getCmd], some (ScenarioError.cmdError r))
  | Except.ok get_pod_output =>
    let log3 := log ++ [getCmd]
    match reason_llm http [("kubectl_get_pod_output", get_pod_output)] classificationPrompt with
    | Except.error e => (log3, some (ScenarioError.llmError e))
    | Except.ok (PyVal.str cls) =>
      let classification := pyStrip cls
      let pc := perceive_context (fun c => tolerantOut (pe c)) pod_name classification
      let log4 := log3 ++ pc.2
      match reason_llm http pc.1 diagnosisTemplate with
      | Except.error e => (log4, some (ScenarioError.llmError e))
      | Except.ok _ => finishCleanup node sc log4
    | Except.ok _ => (log3, some (ScenarioError.llmError PyExc.attributeError))

/-- The identification stretch of a scenario iteration (src/pods.py
lines 257-261): poll for the pod; a missing pod skips straight to cleanup,
a found pod continues with classification.  Because `pe` is deterministic
the five polls all see the same output, so a successful round issues one
listing command and an unsuccessful round issues five. -/
def scenarioIdentifyOn (pe : String → ProcResult) (http : String → HttpOutcome)
    (node : Option String) (sc : Scenario) (log1 : List String) :
    List String × Option ScenarioError :=
  let podsOut := tolerantOut (pe "kubectl get pods -o name")
  let pod? := get_pod_name (fun _ => podsOut) sc.pod_name_pattern
  let log2 := log1 ++ List.replicate (if pod?.isSome then 1 else 5) "kubectl get pods -o name"
  match pod? with
  | none => finishCleanup node sc log2
  | some pod_name => scenarioClassifyOn pe http node sc pod_name log2

/-- The manifest-apply step of a scenario iteration (src/pods.py line 253):
strict, so a non-zero exit aborts the iteration before cleanup. -/
def scenarioApplyOn (pe : String → ProcResult) (http : String → HttpOutcome)
    (node : Option String) (sc : Scenario) (log0 : List String) :
    List String × Option ScenarioError :=
  let applyCmd := "kubectl apply -f scenarios/" ++ sc.manifest_filename
  match run_command (pe applyCmd) true with
  | Except.error r => (log0 ++ [applyCmd], some (ScenarioError.cmdError r))
  | Except.ok _ => scenarioIdentifyOn pe http node sc (log0 ++ [applyCmd])

/-- One iteration of the scenario loop in `main` (src/pods.py
lines 234-329), for scenario id `sid` with record `sc`.  External
behaviour is given by the deterministic oracles `pe` (command to process
result) and `http` (prompt to HTTP outcome); `node` is `node_for_taint`.
Returns the list of shell commands issued, in order, together with the
uncaught exception that aborted the iteration, if any (the loop has no
try/finally, so an exception skips the cleanup commands).  Sleeps, console
output, and the manifest file read are not observable here. -/
def runScenarioBody (pe : String → ProcResult) (http : String → HttpOutcome)
    (node : Option String) (sid : String) (sc : Scenario) :
    List String × Option ScenarioError :=
  if occursIn "taint".data sid.data ∧ node = none then ([], none)
  else
    match sc.pre_run_command with
    | none => scenarioApplyOn pe http node sc []
    | some c =>
      let cmd := fmtNode c node
      match run_command (pe cmd) true with
      | Except.ok _ => scenarioApplyOn pe http node sc [cmd]
      | Except.error r => ([cmd], some (ScenarioError.cmdError r))

/-- Two-block test template: a block for key A = pod_description followed
by a block for key B = node_descriptions, exactly in the shape the
diagnosis template of src/pods.py uses. -/
def tmplAB : String := "--- POD_DESCRIPTION ---\n\x7bpod_description\x7d\n--- END POD_DESCRIPTION ---\n\n--- NODE_DESCRIPTIONS ---\n\x7bnode_descriptions\x7d\n--- END NODE_DESCRIPTIONS ---"

/-- Header line of block A in `tmplAB`. -/
def hdrA : String := "--- POD_DESCRIPTION ---\n"

/-- Footer of block A plus the blank-line separator that precedes block B
in `tmplAB`. -/
def ftrAsep : String := "\n--- END POD_DESCRIPTION ---\n\n"

/-- The whole of block B in `tmplAB`. -/
def blockB : String := "--- NODE_DESCRIPTIONS ---\n\x7bnode_descriptions\x7d\n--- END NODE_DESCRIPTIONS ---"

/-- Scripted poll outputs for the retry-policy witness: empty listings for
the first four polls, a matching pod line from the fifth on. -/
def pollsWitness : Nat → String :=
  fun i => if i < 4 then "" else "pod/high-cpu-app-xyz"

/-- Executor in which every command succeeds with empty output. -/
def peAllOk : String → ProcResult :=
  fun _ => { returncode := 0, stdout := "", stderr := "" }

/-- Executor in which the manifest-apply command of scenario 1 exits
non-zero and every other command succeeds. -/
def peApplyFails : String → ProcResult :=
  fun cmd =>
    if cmd = "kubectl apply -f scenarios/1_insufficient_cpu.yaml" then
      { returncode := 1, stdout := "", stderr := "error: the path does not exist" }
    else { returncode := 0, stdout := "", stderr := "" }

/-- HTTP oracle in which every model call fails at the transport level
(a RequestException, which `call_llm` converts to text). -/
def httpDown : String → HttpOutcome :=
  fun _ => HttpOutcome.transportError "connection refused"

/-- The record of scenario `1_insufficient_cpu` (first entry of `SCENARIOS`). -/
def scenario1 : Scenario :=
  { description := "A pod requests more CPU than any node can provide, causing a 'Pending' state.",
    manifest_filename := "1_insufficient_cpu.yaml",
    pod_name_pattern := "high-cpu-app-",
    cleanup_kind := "deployment", cleanup_name := "high-cpu-app" }


theorem matchLit_some_iff (ls : List Char) : ∀ (cs rest : List Char),
    matchLit ls cs = some rest ↔ cs = ls ++ rest := by
  induction ls with
  | nil =>
    intro cs rest
    simp [matchLit, eq_comm]
  | cons l ls ih =>
    intro cs rest
    cases cs with
    | nil => simp [matchLit]
    | cons c cs =>
      by_cases hc : c = l
      · subst hc
        simp [matchLit, ih]
      · simp [matchLit, hc]

theorem matchLit_length {ls cs rest : List Char} (h : matchLit ls cs = some rest) :
    cs.length = ls.length + rest.length := by
  rw [(matchLit_some_iff ls cs rest).mp h, List.length_append]

theorem charSpan_eq (p : Char → Bool) : ∀ cs : List Char,
    cs = (charSpan p cs).1 ++ (charSpan p cs).2 := by
  intro cs
  induction cs with
  | nil => rfl
  | cons c cs ih =>
    by_cases hc : p c
    · simp only [charSpan, hc, if_true]
      exact congrArg (c :: ·) ih
    · simp [charSpan, hc]

theorem charSpan_all (p : Char → Bool) : ∀ cs : List Char,
    ∀ c ∈ (charSpan p cs).1, p c = true := by
  intro cs
  induction cs with
  | nil => simp [charSpan]
  | cons c cs ih =>
    by_cases hc : p c
    · simp only [charSpan, hc, if_true]
      intro d hd
      rcases List.mem_cons.mp hd with h | h
      · rw [h]; exact hc
      · exact ih d h
    · simp [charSpan, hc]

theorem charSpan_complete (p : Char → Bool) (run : List Char) (d : Char) (rest : List Char)
    (hrun : ∀ c ∈ run, p c = true) (hd : p d = false) :
    charSpan p (run ++ d :: rest) = (run, d :: rest) := by
  induction run with
  | nil => simp [charSpan, hd]
  | cons c run ih =>
    have hc : p c = true := hrun c (by simp)
    have hr := ih (fun c hc => hrun c (by simp [hc]))
    simp [charSpan, hc, hr]

theorem matchBlock_decomp {cs rest : List Char} (h : matchBlock cs = some rest) :
    ∃ r1 r2 r3 : List Char,
      cs = sHdr ++ (r1 ++ (sMid ++ (r2 ++ (sEnd1 ++ (r3 ++ (sFtr ++ rest)))))) ∧
      r1 ≠ [] ∧ (∀ c ∈ r1, isUpperUnd c = true) ∧
      r2 ≠ [] ∧ (∀ c ∈ r2, isLowerUnd c = true) ∧
      r3 ≠ [] ∧ (∀ c ∈ r3, isUpperUnd c = true) := by
  unfold matchBlock at h
  rcases h1 : matchLit sHdr cs with _ | cs1
  · simp [h1] at h
  simp only [h1] at h
  rcases hsp1 : charSpan isUpperUnd cs1 with ⟨_ | ⟨a1, t1⟩, cs1'⟩
  · simp [hsp1] at h
  simp only [hsp1] at h
  rcases h2 : matchLit sMid cs1' with _ | cs2
  · simp [h2] at h
  simp only [h2] at h
  rcases hsp2 : charSpan isLowerUnd cs2 with ⟨_ | ⟨a2, t2⟩, cs2'⟩
  · simp [hsp2] at h
  simp only [hsp2] at h
  rcases h3 : matchLit sEnd1 cs2' with _ | cs3
  · simp [h3] at h
  simp only [h3] at h
  rcases hsp3 : charSpan isUpperUnd cs3 with ⟨_ | ⟨a3, t3⟩, cs3'⟩
  · simp [hsp3] at h
  simp only [hsp3] at h
  have s1 : cs1 = (a1 :: t1) ++ cs1' := by
    have := charSpan_eq isUpperUnd cs1
    rw [hsp1] at this
    simpa using this
  have s2 : cs2 = (a2 :: t2) ++ cs2' := by
    have := charSpan_eq isLowerUnd cs2
    rw [hsp2] at this
    simpa using this
  have s3 : cs3 = (a3 :: t3) ++ cs3' := by
    have := charSpan_eq isUpperUnd cs3
    rw [hsp3] at this
    simpa using this
  have w1 : ∀ c ∈ a1 :: t1, isUpperUnd c = true := by
    have := charSpan_all isUpperUnd cs1
    rw [hsp1] at this
    exact this
  have w2 : ∀ c ∈ a2 :: t2, isLowerUnd c = true := by
    have := charSpan_all isLowerUnd cs2
    rw [hsp2] at this
    exact this
  have w3 : ∀ c ∈ a3 :: t3, isUpperUnd c = true := by
    have := charSpan_all isUpperUnd cs3
    rw [hsp3] at this
    exact this
  refine ⟨a1 :: t1, a2 :: t2, a3 :: t3, ?_, by simp, w1, by simp, w2, by simp, w3⟩
  have d1 := (matchLit_some_iff sHdr cs cs1).mp h1
  have d2 := (matchLit_some_iff sMid cs1' cs2).mp h2
  have d3 := (matchLit_some_iff sEnd1 cs2' cs3).mp h3
  have d4 := (matchLit_some_iff sFtr cs3' rest).mp h
  rw [d1, s1, d2, s2, d3, s3, d4]

theorem matchBlock_length {cs rest : List Char} (h : matchBlock cs = some rest) :
    rest.length < cs.length := by
  obtain ⟨r1, r2, r3, hcs, -⟩ := matchBlock_decomp h
  rw [hcs]
  simp [sHdr, sMid, sEnd1, sFtr]
  omega

theorem subGo_nil : ∀ fuel, subGo fuel [] = [] := by
  intro fuel
  cases fuel <;> rfl

theorem subGo_irrel : ∀ (f1 f2 : Nat) (cs : List Char),
    cs.length ≤ f1 → cs.length ≤ f2 → subGo f1 cs = subGo f2 cs := by
  intro f1
  induction f1 with
  | zero =>
    intro f2 cs h1 _
    rw [List.length_eq_zero.mp (Nat.le_zero.mp h1), subGo_nil, subGo_nil]
  | succ f1 ih =>
    intro f2 cs h1 h2
    cases cs with
    | nil => rw [subGo_nil, subGo_nil]
    | cons c cs =>
      cases f2 with
      | zero => simp at h2
      | succ g =>
        rcases hm : matchBlock (c :: cs) with _ | rest
        · simp only [subGo, hm]
          have hl : cs.length ≤ f1 := by simp at h1; omega
          have hl2 : cs.length ≤ g := by simp at h2; omega
          rw [ih g cs hl hl2]
        · simp only [subGo, hm]
          have hr := matchBlock_length hm
          have hl : rest.length ≤ f1 := by simp at h1 hr; omega
          have hl2 : rest.length ≤ g := by simp at h2 hr; omega
          rw [ih g rest hl hl2]

theorem subGo_append (xs ys : List Char)
    (H : ∀ xs', xs' <:+ xs → xs' ≠ [] → matchBlock (xs' ++ ys) = none) :
    ∀ fuel, xs.length + ys.length ≤ fuel →
      subGo fuel (xs ++ ys) = xs ++ subGo ys.length ys := by
  induction xs with
  | nil =>
    intro fuel hf
    simp only [List.nil_append]
    exact subGo_irrel fuel ys.length ys (by simpa using hf) (le_refl _)
  | cons x xs ih =>
    intro fuel hf
    cases fuel with
    | zero => simp at hf
    | succ f =>
      have hnone : matchBlock (x :: (xs ++ ys)) = none := by
        have := H (x :: xs) (List.suffix_refl _) (by simp)
        simpa using this
      have hrec : subGo f (xs ++ ys) = xs ++ subGo ys.length ys := by
        refine ih (fun xs' hs hne => H xs' (hs.trans (List.suffix_cons x xs)) hne) f ?_
        simp at hf
        omega
      calc subGo (f + 1) ((x :: xs) ++ ys)
          = subGo (f + 1) (x :: (xs ++ ys)) := by rw [List.cons_append]
        _ = x :: subGo f (xs ++ ys) := by simp only [subGo, hnone]
        _ = x :: (xs ++ subGo ys.length ys) := by rw [hrec]
        _ = (x :: xs) ++ subGo ys.length ys := by rw [List.cons_append]

theorem stringMk_data (s : String) : String.mk s.data = s := by
  cases s
  rfl

theorem hasPlaceholder_append_right (xs ys : List Char) (h : hasPlaceholder ys = true) :
    hasPlaceholder (xs ++ ys) = true := by
  induction xs with
  | nil => simpa using h
  | cons x xs ih => simp [hasPlaceholder, ih]

theorem matchBlock_some_hasPlaceholder {cs rest : List Char}
    (h : matchBlock cs = some rest) : hasPlaceholder cs = true := by
  obtain ⟨r1, r2, r3, hcs, -, -, h2ne, h2all, -, -⟩ := matchBlock_decomp h
  have hspan := charSpan_complete isLowerUnd r2 '\x7d'
    ('\n' :: '-' :: '-' :: '-' :: ' ' :: 'E' :: 'N' :: 'D' :: ' ' :: (r3 ++ (sFtr ++ rest))) h2all (by decide)
  have key : hasPlaceholder
      ('\x7b' :: (r2 ++ ('\x7d' :: ('\n' :: '-' :: '-' :: '-' :: ' ' :: 'E' :: 'N' :: 'D' :: ' ' :: (r3 ++ (sFtr ++ rest)))))) = true := by
    simp only [hasPlaceholder, matchPlaceholderShape, hspan]
    simp [h2ne]
  rw [hcs]
  apply hasPlaceholder_append_right
  apply hasPlaceholder_append_right
  rw [show sMid ++ (r2 ++ (sEnd1 ++ (r3 ++ (sFtr ++ rest))))
      = ([' ', '-', '-', '-', '\n'] : List Char) ++
        ('\x7b' :: (r2 ++ ('\x7d' :: ('\n' :: '-' :: '-' :: '-' :: ' ' :: 'E' :: 'N' :: 'D' :: ' ' :: (r3 ++ (sFtr ++ rest))))))
    from by simp [sMid, sEnd1]]
  apply hasPlaceholder_append_right
  exact key

theorem subGo_id (fuel : Nat) : ∀ cs, hasPlaceholder cs = false → subGo fuel cs = cs := by
  induction fuel with
  | zero => intro cs _; rfl
  | succ f ih =>
    intro cs h
    cases cs with
    | nil => rfl
    | cons c cs' =>
      rcases hm : matchBlock (c :: cs') with _ | rest
      · simp only [subGo, hm]
        have h' : hasPlaceholder cs' = false := by
          simp [hasPlaceholder] at h
          exact h.2
        rw [ih cs' h']
      · have := matchBlock_some_hasPlaceholder hm
        simp [this] at h

theorem occursIn_nil_pat : ∀ cs : List Char, occursIn [] cs = true := by
  intro cs
  cases cs <;> simp [occursIn, matchLit]

theorem repGo_id (p0 : Char) (ps repl : List Char) (fuel : Nat) : ∀ cs,
    occursIn (p0 :: ps) cs = false → repGo p0 ps repl fuel cs = cs := by
  induction fuel with
  | zero => intro cs _; rfl
  | succ f ih =>
    intro cs h
    cases cs with
    | nil => rfl
    | cons c cs' =>
      have h' : (matchLit (p0 :: ps) (c :: cs')).isSome = false ∧ occursIn (p0 :: ps) cs' = false := by
        simpa [occursIn] using h
      rcases hm : matchLit (p0 :: ps) (c :: cs') with _ | rest
      · simp only [repGo, hm]
        rw [ih cs' h'.2]
      · rw [hm] at h'
        simp at h'

theorem pyReplace_self {s pat : String} (repl : String) (h : strOccurs s pat = false) :
    pyReplace s pat repl = s := by
  unfold strOccurs at h
  unfold pyReplace
  rcases hp : pat.data with _ | ⟨p0, ps⟩
  · rw [hp, occursIn_nil_pat] at h
    cases h
  · rw [hp] at h
    simp only [hp]
    rw [repGo_id p0 ps repl.data s.data.length s.data h, stringMk_data]

theorem foldl_replace_id (c : List (String × String)) (o : String)
    (h : ∀ kv ∈ c, strOccurs o (placeholderOf kv.1) = false) :
    c.foldl (fun p kv => pyReplace p (placeholderOf kv.1) kv.2) o = o := by
  induction c with
  | nil => rfl
  | cons kv c ih =>
    simp only [List.foldl_cons]
    rw [pyReplace_self kv.2 (h kv (by simp))]
    exact ih (fun kv' hm => h kv' (by simp [hm]))

theorem suffix_append_cases {xs' l1 l2 : List Char} (h : xs' <:+ l1 ++ l2) :
    xs' <:+ l2 ∨ ∃ u, u <:+ l1 ∧ u ≠ [] ∧ xs' = u ++ l2 := by
  induction l1 with
  | nil =>
    left
    simpa using h
  | cons a l1 ih =>
    rw [List.cons_append] at h
    rcases List.suffix_cons_iff.mp h with h | h
    · right
      exact ⟨a :: l1, List.suffix_refl _, by simp, by simpa using h⟩
    · rcases ih h with h | ⟨u, hu, hne, he⟩
      · left
        exact h
      · right
        exact ⟨u, hu.trans (List.suffix_cons a l1), hne, he⟩

theorem matchBlock_none_mid (w z' : List Char) (hw : '\x7b' ∉ w)
    (hz : ∀ c, z'.head? = some c → c ≠ '\x7b') :
    matchBlock (w ++ '\n' :: z') = none := by
  rcases hm : matchBlock (w ++ '\n' :: z') with _ | rest
  · rfl
  exfalso
  obtain ⟨r1, r2, r3, hcs, -, h1all, -, -, -, -⟩ := matchBlock_decomp hm
  set R : List Char := r2 ++ (sEnd1 ++ (r3 ++ (sFtr ++ rest))) with hR
  set Q : List Char := sHdr ++ (r1 ++ [' ', '-', '-', '-', '\n']) with hQ
  have hcs' : w ++ '\n' :: z' = Q ++ '\x7b' :: R := by
    rw [hcs, hQ, hR]
    simp [sMid, sHdr]
  have hQlen : Q.length = r1.length + 9 := by
    simp [hQ, sHdr]
  have g1 : (w ++ '\n' :: z')[w.length]? = some '\n' := by
    rw [List.getElem?_append_right (le_refl w.length)]
    simp
  have g2 : (Q ++ '\x7b' :: R)[Q.length]? = some '\x7b' := by
    rw [List.getElem?_append_right (le_refl Q.length)]
    simp
  rcases Nat.lt_trichotomy w.length Q.length with hlt | heq | hgt
  · -- the '\n' that starts the suffix lands strictly inside the pattern prefix
    have hQn : Q[w.length]? = some '\n' := by
      rw [hcs'] at g1
      rwa [List.getElem?_append_left hlt] at g1
    have hsHdrLen : sHdr.length = 4 := by simp [sHdr]
    by_cases hn4 : w.length < 4
    · have : sHdr[w.length]? = some '\n' := by
        rw [hQ] at hQn
        rwa [List.getElem?_append_left (by omega)] at hQn
      have hmem := List.getElem?_mem this
      simp [sHdr] at hmem
    · by_cases hn2 : w.length < 4 + r1.length
      · have h5 : (r1 ++ [' ', '-', '-', '-', '\n'])[w.length - 4]? = some '\n' := by
          rw [hQ] at hQn
          rw [List.getElem?_append_right (by omega)] at hQn
          rwa [hsHdrLen] at hQn
        have h6 : r1[w.length - 4]? = some '\n' := by
          rwa [List.getElem?_append_left (by omega)] at h5
        have hmem := List.getElem?_mem h6
        have := h1all '\n' hmem
        simp [isUpperUnd] at this
      · -- the '\n' is the one of the pattern, just before the opening brace
        have h5 : ([' ', '-', '-', '-', '\n'] : List Char)[w.length - 4 - r1.length]? = some '\n' := by
          rw [hQ] at hQn
          rw [List.getElem?_append_right (by omega)] at hQn
          rw [hsHdrLen] at hQn
          rw [List.getElem?_append_right (by omega)] at hQn
          rwa [show w.length - 4 - r1.length = w.length - 4 - r1.length from rfl] at hQn
        have hj5 : w.length - 4 - r1.length < 5 := by omega
        have hj4 : w.length - 4 - r1.length = 4 := by
          generalize hj : w.length - 4 - r1.length = j at h5 hj5 ⊢
          interval_cases j
          · simp at h5
          · simp at h5
          · simp at h5
          · simp at h5
          · rfl
        have hwQ : w.length + 1 = Q.length := by omega
        have g3 : (w ++ '\n' :: z')[w.length + 1]? = z'.head? := by
          rw [List.getElem?_append_right (by omega)]
          simp [List.head?_eq_getElem?]
        have g4 : z'.head? = some '\x7b' := by
          rw [← g3, hcs', hwQ]
          exact g2
        exact hz '\x7b' g4 rfl
  · rw [hcs', heq, g2] at g1
    simp at g1
  · have hwb : w[Q.length]? = some '\x7b' := by
      rw [← hcs'] at g2
      rwa [List.getElem?_append_left hgt] at g2
    exact hw (List.getElem?_mem hwb)


theorem hdrA_block_none (c : Char) (rest' : List Char) (hc : c ≠ '\x7b') :
    matchBlock (hdrA.data ++ c :: rest') = none := by
  have s1 : matchLit sHdr (hdrA.data ++ c :: rest')
      = some ("POD_DESCRIPTION ---\n".data ++ c :: rest') := rfl
  have s2 : charSpan isUpperUnd ("POD_DESCRIPTION ---\n".data ++ c :: rest')
      = ('P' :: "OD_DESCRIPTION".data, " ---\n".data ++ c :: rest') := rfl
  have s3 : matchLit sMid (" ---\n".data ++ c :: rest') = none := by
    have e : matchLit sMid (" ---\n".data ++ c :: rest')
        = if c = '\x7b' then some rest' else none := rfl
    rw [e, if_neg hc]
  simp only [matchBlock, s1, s2, s3]

theorem c3_skip_hypothesis (v : String) (hv : '\x7b' ∉ v.data) :
    ∀ xs', xs' <:+ hdrA.data ++ (v.data ++ ftrAsep.data) → xs' ≠ [] →
      matchBlock (xs' ++ blockB.data) = none := by
  intro xs' hs hne
  rcases suffix_append_cases hs with h | ⟨u, hu, hune, he⟩
  · rcases suffix_append_cases h with h2 | ⟨w, hwsuf, hwne, hwe⟩
    · -- a (non-empty) suffix of the concrete footer text: a finite check
      obtain ⟨t, ht⟩ := h2
      have hxs : xs' = ftrAsep.data.drop t.length := by
        rw [← ht, List.drop_left]
      have hlen : t.length + xs'.length = ftrAsep.data.length := by
        rw [← ht, List.length_append]
      have h30 : ftrAsep.data.length = 30 := rfl
      have hpos : 0 < xs'.length := List.length_pos.mpr hne
      have hall1 : ∀ i, i < 30 → matchBlock (ftrAsep.data.drop i ++ blockB.data) = none := by
        decide
      rw [hxs]
      exact hall1 t.length (by omega)
    · -- starts inside v: v has no opening brace and the footer follows
      have hw : '\x7b' ∉ w := fun hmem => hv (hwsuf.subset hmem)
      rw [hwe, List.append_assoc]
      rw [show ftrAsep.data ++ blockB.data
          = '\n' :: ("--- END POD_DESCRIPTION ---\n\n".data ++ blockB.data) from rfl]
      refine matchBlock_none_mid w _ hw ?_
      intro c hc
      have hc' : some '-' = some c := hc
      cases hc'
      decide
  · -- starts inside the concrete header text
    obtain ⟨t, ht⟩ := hu
    have hud : u = hdrA.data.drop t.length := by
      rw [← ht, List.drop_left]
    have hlen : t.length + u.length = hdrA.data.length := by
      rw [← ht, List.length_append]
    have h24 : hdrA.data.length = 24 := rfl
    have hupos : 0 < u.length := List.length_pos.mpr hune
    by_cases h0 : t.length = 0
    · -- the full header: the matcher then demands an opening brace
      have hufull : u = hdrA.data := by
        rw [hud, h0, List.drop_zero]
      rw [he, hufull, List.append_assoc, List.append_assoc]
      rcases hvd : v.data with _ | ⟨c, v'⟩
      · simp only [List.nil_append]
        rw [show ftrAsep.data ++ blockB.data
            = '\n' :: ("--- END POD_DESCRIPTION ---\n\n".data ++ blockB.data) from rfl]
        exact hdrA_block_none '\n' _ (by decide)
      · have hcv : c ≠ '\x7b' := by
          intro he2
          rw [hvd] at hv
          exact hv (he2 ▸ List.mem_cons_self c v')
        simp only [List.cons_append]
        exact hdrA_block_none c _ hcv
    · -- a proper suffix of the header: fails within its first characters
      have hall2 : ∀ i, 1 ≤ i → i < 24 → ∀ z, matchBlock (hdrA.data.drop i ++ z) = none := by
        intro i h1 h2 z
        interval_cases i <;> rfl
      rw [he, hud, List.append_assoc]
      exact hall2 t.length (by omega) (by omega) _

/-- C1: for every classification string and resource name, `perceive_context`
returns a package whose key sequence is exactly the base description key
followed by the additional keys of the section 4.1 table for that
classification (the InitializationFailure key appearing exactly when an
init-container name is found in the description), and for any classification
outside the enumerated set only the base key, with no error raised (the
function is total). -/
theorem c1_context_keys_match_table (ex : String → String) (pod_name classification : String) :
    (perceive_context ex pod_name classification).1.map Prod.fst
      = "pod_description" :: specTableKeys classification (ex ("kubectl describe pod " ++ pod_name)) := by
  simp only [perceive_context, specTableKeys]
  split_ifs <;> simp

/-- C2: what `run_command` actually does.  In tolerant mode (`check=False`)
it returns the trimmed standard output regardless of the exit status,
because `subprocess.run` only raises `CalledProcessError` when `check=True`,
so the stderr-returning branch of the `except` clause is unreachable; in
strict mode a non-zero exit propagates the exception.  The last conjunct
evaluates the code at the failing input of the claim: exit status 1 with
tolerated failure yields the stdout text, not the stderr text. -/
theorem c2_run_command_behaviour :
    (∀ r : ProcResult, run_command r false = Except.ok (pyStrip r.stdout)) ∧
    (∀ r : ProcResult, run_command r true
        = if r.returncode = 0 then Except.ok (pyStrip r.stdout) else Except.error r) ∧
    run_command { returncode := 1, stdout := "output text", stderr := "error text" } false
      = Except.ok "output text" := by
  refine ⟨?_, ?_, ?_⟩
  · intro r
    simp [run_command, subprocess_run]
  · intro r
    by_cases h : r.returncode = 0 <;> simp [run_command, subprocess_run, h]
  · rfl

set_option maxRecDepth 10000

/-- C3 counterexample: with the two-block template and a context holding
only the A key, the claim fails when A's value is itself placeholder-shaped:
for the value written open brace, x, close brace, the substituted A block
matches the deletion regex, both blocks are removed, and the assembled
output does not contain A's value at all. -/
theorem c3_counterexample :
    assemble [("pod_description", "\x7bx\x7d")] tmplAB = "\n\n" ∧
    strOccurs (assemble [("pod_description", "\x7bx\x7d")] tmplAB) "\x7bx\x7d" = false := by
  constructor
  · decide
  · decide

/-- C3 (amended): for the two-block template with keys A = pod_description
and B = node_descriptions and a context containing only A, provided A's
value contains no opening brace, the assembled output is exactly A's header
line, A's value, and A's footer plus separator: B's entire block, including
its header and footer markers, is deleted and no empty B section remains;
in particular the output contains A's value. -/
theorem c3_block_removal (v : String) (hv : '\x7b' ∉ v.data) :
    assemble [("pod_description", v)] tmplAB = hdrA ++ v ++ ftrAsep ∧
    v.data <:+: (assemble [("pod_description", v)] tmplAB).data := by
  have hfold : assemble [("pod_description", v)] tmplAB
      = stripUnfilledBlocks (pyReplace tmplAB (placeholderOf "pod_description") v) := rfl
  have hrep : pyReplace tmplAB (placeholderOf "pod_description") v
      = String.mk (hdrA.data ++ (v.data ++ (ftrAsep.data ++ blockB.data))) := rfl
  have hassoc : hdrA.data ++ (v.data ++ (ftrAsep.data ++ blockB.data))
      = (hdrA.data ++ (v.data ++ ftrAsep.data)) ++ blockB.data := by
    simp [List.append_assoc]
  have hB : subGo blockB.data.length blockB.data = [] := by decide
  have hmain : assemble [("pod_description", v)] tmplAB = hdrA ++ v ++ ftrAsep := by
    have hstrip : stripUnfilledBlocks (String.mk (hdrA.data ++ (v.data ++ (ftrAsep.data ++ blockB.data))))
        = String.mk (subGo (hdrA.data ++ (v.data ++ (ftrAsep.data ++ blockB.data))).length
            (hdrA.data ++ (v.data ++ (ftrAsep.data ++ blockB.data)))) := rfl
    rw [hfold, hrep, hstrip, hassoc]
    rw [subGo_append (hdrA.data ++ (v.data ++ ftrAsep.data)) blockB.data
      (c3_skip_hypothesis v hv) _ (le_of_eq (List.length_append _ _).symm)]
    rw [hB, List.append_nil]
    rfl
  refine ⟨hmain, ?_⟩
  rw [hmain]
  exact ⟨hdrA.data, ftrAsep.data, rfl⟩

/-- C3 witness: the amended theorem at a concrete brace-free value. -/
theorem c3_block_removal_witness :
    assemble [("pod_description", "Pending: insufficient cpu")] tmplAB
      = hdrA ++ "Pending: insufficient cpu" ++ ftrAsep :=
  (c3_block_removal "Pending: insufficient cpu" (by decide)).1

/-- C4: when the context package is exactly the sentinel singleton, prompt
assembly returns the template with the one sentinel placeholder replaced by
the sentinel's value — a single `str.replace`, with no per-key substitution
loop and no block-stripping pass. -/
theorem c4_single_substitution (v t : String) :
    assemble [(sentinelKey, v)] t = pyReplace t (placeholderOf sentinelKey) v := rfl

theorem assemble_fixed (c : List (String × String)) (o : String)
    (h1 : ∀ kv ∈ c, strOccurs o (placeholderOf kv.1) = false)
    (h2 : strHasPlaceholder o = false) :
    assemble c o = o := by
  by_cases hdc : dictContains c sentinelKey = true
  · obtain ⟨kv, hmem, hkey⟩ : ∃ kv ∈ c, kv.1 = sentinelKey := by
      simpa [dictContains] using hdc
    have hocc : strOccurs o (placeholderOf sentinelKey) = false := by
      have := h1 kv hmem
      rwa [hkey] at this
    rw [assemble, if_pos hdc]
    exact pyReplace_self _ hocc
  · rw [assemble, if_neg hdc]
    rw [foldl_replace_id c o h1]
    unfold stripUnfilledBlocks
    unfold strHasPlaceholder at h2
    rw [subGo_id _ o.data h2, stringMk_data]

/-- C5: prompt assembly is idempotent when no placeholders remain after the
first pass — no placeholder of a context key occurs in the assembled output
and no placeholder-shaped substring remains (so the deletion regex cannot
fire either): assembling the assembled output again with the same context
yields the identical string. -/
theorem c5_assemble_idempotent (t : String) (c : List (String × String))
    (h1 : ∀ kv ∈ c, strOccurs (assemble c t) (placeholderOf kv.1) = false)
    (h2 : strHasPlaceholder (assemble c t) = false) :
    assemble c (assemble c t) = assemble c t :=
  assemble_fixed c (assemble c t) h1 h2

/-- C5 witness: idempotence at a concrete template and context. -/
theorem c5_assemble_idempotent_witness :
    assemble [("a", "X")] (assemble [("a", "X")] "\x7ba\x7d") = assemble [("a", "X")] "\x7ba\x7d" :=
  c5_assemble_idempotent "\x7ba\x7d" [("a", "X")] (by decide) (by decide)

/-- C6 counterexample: a 200 response whose decoded JSON body lacks the
`choices` key makes `call_llm` raise a `KeyError` instead of returning an
error string — only `RequestException` is caught at src/pods.py line 52,
and `response_data["choices"]` at line 50 is outside that class. -/
theorem c6_counterexample :
    call_llm (HttpOutcome.response 200 (some (PyVal.dict [("error", PyVal.str "overloaded")])))
      = Except.error (PyExc.keyError "choices") := rfl

/-- C6 (amended): `call_llm` returns a descriptive error string on a
transport failure, on an HTTP error status (400-599, the statuses for which
`raise_for_status` raises), and on an undecodable body, and returns the
content text on a well-formed body; but a decodable body of the wrong shape
(see the counterexample) raises. -/
theorem c6_call_llm_error_strings :
    (∀ m, call_llm (HttpOutcome.transportError m)
      = Except.ok (PyVal.str ("API Request Error: " ++ m))) ∧
    (∀ status body, 400 ≤ status → status < 600 →
      call_llm (HttpOutcome.response status body)
        = Except.ok (PyVal.str ("API Request Error: HTTPError status " ++ toString status))) ∧
    (∀ status, ¬(400 ≤ status ∧ status < 600) →
      call_llm (HttpOutcome.response status none)
        = Except.ok (PyVal.str "API Request Error: JSONDecodeError")) ∧
    (∀ status s, ¬(400 ≤ status ∧ status < 600) →
      call_llm (HttpOutcome.response status (some (PyVal.dict
          [("choices", PyVal.list [PyVal.dict [("message", PyVal.dict [("content", PyVal.str s)])]])])))
        = Except.ok (PyVal.str s)) := by
  refine ⟨fun m => rfl, ?_, ?_, ?_⟩
  · intro status body h1 h2
    simp only [call_llm]
    rw [if_pos ⟨h1, h2⟩]
  · intro status h
    simp only [call_llm]
    rw [if_neg h]
  · intro status s h
    simp only [call_llm]
    rw [if_neg h]
    rfl

/-- C6 witness: the error-string conjuncts at concrete statuses and a
well-formed body. -/
theorem c6_call_llm_error_strings_witness :
    call_llm (HttpOutcome.response 500 none)
      = Except.ok (PyVal.str ("API Request Error: HTTPError status " ++ toString 500)) ∧
    call_llm (HttpOutcome.response 200 none)
      = Except.ok (PyVal.str "API Request Error: JSONDecodeError") ∧
    call_llm (HttpOutcome.response 200 (some (PyVal.dict
        [("choices", PyVal.list [PyVal.dict [("message", PyVal.dict [("content", PyVal.str "hi")])]])])))
      = Except.ok (PyVal.str "hi") :=
  ⟨c6_call_llm_error_strings.2.1 500 none (by decide) (by decide),
   c6_call_llm_error_strings.2.2.1 200 (by decide),
   c6_call_llm_error_strings.2.2.2 200 "hi" (by decide)⟩

/-- C9: membership of the sentinel key, not the package being exactly the
singleton, selects single-substitution mode: for any package containing the
sentinel key, assembly is the one sentinel replacement using the sentinel's
value; every other pair is ignored and no block-stripping occurs. -/
theorem c9_sentinel_membership (p : List (String × String)) (t : String)
    (h : dictContains p sentinelKey = true) :
    assemble p t = pyReplace t (placeholderOf sentinelKey) (dictGet p sentinelKey) := by
  rw [assemble, if_pos h]

/-- C9 witness: a package with the sentinel plus another key still takes
the single-substitution path and ignores the extra pair. -/
theorem c9_sentinel_membership_witness :
    assemble [(sentinelKey, "Pending"), ("other", "IGNORED")] "\x7bkubectl_get_pod_output\x7d"
      = "Pending" := by
  rw [c9_sentinel_membership [(sentinelKey, "Pending"), ("other", "IGNORED")]
    "\x7bkubectl_get_pod_output\x7d" (by decide)]
  decide

/-- C10: in multi-block mode substitution is sequential in package order,
not simultaneous: a two-key package assembles as the composition of the two
replacements (first key first), so text that the first value introduced is
still subject to the second key's replacement. -/
theorem c10_sequential_substitution (t k1 v1 k2 v2 : String)
    (h1 : k1 ≠ sentinelKey) (h2 : k2 ≠ sentinelKey) :
    assemble [(k1, v1), (k2, v2)] t
      = stripUnfilledBlocks (pyReplace (pyReplace t (placeholderOf k1) v1) (placeholderOf k2) v2) := by
  have hdc : dictContains [(k1, v1), (k2, v2)] sentinelKey = false := by
    simp [dictContains, h1, h2]
  rw [assemble, if_neg (by simp [hdc])]
  rfl

/-- C10 witness: the value substituted for the earlier key contains the
later key's placeholder, and that occurrence is replaced too. -/
theorem c10_sequential_substitution_witness :
    assemble [("a", "\x7bb\x7d"), ("b", "XY")] "\x7ba\x7d" = "XY" := by
  rw [c10_sequential_substitution "\x7ba\x7d" "a" "\x7bb\x7d" "b" "XY" (by decide) (by decide)]
  decide

theorem get_pod_name_step (polls : Nat → String) (pattern : String) (k i : Nat)
    (h : scanPodsOutput pattern (splitLines (polls i).data) = none) :
    get_pod_name_loop polls pattern (k + 1) i = get_pod_name_loop polls pattern k (i + 1) := by
  simp only [get_pod_name_loop, h]

theorem get_pod_name_hit (polls : Nat → String) (pattern : String) (k i : Nat) (name : String)
    (h : scanPodsOutput pattern (splitLines (polls i).data) = some name) :
    get_pod_name_loop polls pattern (k + 1) i = some name := by
  simp only [get_pod_name_loop, h]

/-- C7: resource identification is a bounded five-poll loop.  If the first
four polls show no pod whose name (with the `pod/` prefix text removed)
starts with the pattern and the fifth does, `get_pod_name` returns that
pod's name; if no poll ever matches, it returns `none` after the five
attempts instead of raising or looping forever. -/
theorem c7_get_pod_name_retry (polls : Nat → String) (pattern name : String) :
    ((∀ i, i < 4 → scanPodsOutput pattern (splitLines (polls i).data) = none) →
      scanPodsOutput pattern (splitLines (polls 4).data) = some name →
      get_pod_name polls pattern = some name) ∧
    ((∀ i, i < 5 → scanPodsOutput pattern (splitLines (polls i).data) = none) →
      get_pod_name polls pattern = none) := by
  constructor
  · intro h h4
    calc get_pod_name polls pattern
        = get_pod_name_loop polls pattern 5 0 := rfl
      _ = get_pod_name_loop polls pattern 4 1 := get_pod_name_step polls pattern 4 0 (h 0 (by omega))
      _ = get_pod_name_loop polls pattern 3 2 := get_pod_name_step polls pattern 3 1 (h 1 (by omega))
      _ = get_pod_name_loop polls pattern 2 3 := get_pod_name_step polls pattern 2 2 (h 2 (by omega))
      _ = get_pod_name_loop polls pattern 1 4 := get_pod_name_step polls pattern 1 3 (h 3 (by omega))
      _ = some name := get_pod_name_hit polls pattern 0 4 name h4
  · intro h
    calc get_pod_name polls pattern
        = get_pod_name_loop polls pattern 5 0 := rfl
      _ = get_pod_name_loop polls pattern 4 1 := get_pod_name_step polls pattern 4 0 (h 0 (by omega))
      _ = get_pod_name_loop polls pattern 3 2 := get_pod_name_step polls pattern 3 1 (h 1 (by omega))
      _ = get_pod_name_loop polls pattern 2 3 := get_pod_name_step polls pattern 2 2 (h 2 (by omega))
      _ = get_pod_name_loop polls pattern 1 4 := get_pod_name_step polls pattern 1 3 (h 3 (by omega))
      _ = get_pod_name_loop polls pattern 0 5 := get_pod_name_step polls pattern 0 4 (h 4 (by omega))
      _ = none := rfl

/-- C7 witness: both conjuncts at scripted poll sequences. -/
theorem c7_get_pod_name_retry_witness :
    get_pod_name pollsWitness "high-cpu-app-" = some "high-cpu-app-xyz" ∧
    get_pod_name (fun _ => "no pods found") "high-cpu-app-" = none := by
  constructor
  · exact (c7_get_pod_name_retry pollsWitness "high-cpu-app-" "high-cpu-app-xyz").1
      (by intro i hi; interval_cases i <;> rfl) rfl
  · exact (c7_get_pod_name_retry (fun _ => "no pods found") "high-cpu-app-" "x").2
      (by intro i hi; rfl)

theorem finishCleanup_runs (node : Option String) (sc : Scenario) (log : List String) :
    cleanupCmd sc ∈ (finishCleanup node sc log).1 ∧ (finishCleanup node sc log).2 = none := by
  rcases hpost : sc.post_run_command with _ | c <;> simp [finishCleanup, hpost]


theorem scenarioClassifyOn_cleanup (pe : String → ProcResult) (http : String → HttpOutcome)
    (node : Option String) (sc : Scenario) (pod_name : String) (log : List String)
    (hget : (pe ("kubectl get pod " ++ pod_name)).returncode = 0)
    (hllm : ∀ ctx tmpl, ∃ s, reason_llm http ctx tmpl = Except.ok (PyVal.str s)) :
    cleanupCmd sc ∈ (scenarioClassifyOn pe http node sc pod_name log).1 ∧
    (scenarioClassifyOn pe http node sc pod_name log).2 = none := by
  have hrg : run_command (pe ("kubectl get pod " ++ pod_name)) true
      = Except.ok (pyStrip (pe ("kubectl get pod " ++ pod_name)).stdout) := by
    simp [run_command, subprocess_run, hget]
  obtain ⟨s1, hs1⟩ := hllm
    [("kubectl_get_pod_output", pyStrip (pe ("kubectl get pod " ++ pod_name)).stdout)]
    classificationPrompt
  obtain ⟨s2, hs2⟩ := hllm
    (perceive_context (fun c => tolerantOut (pe c)) pod_name (pyStrip s1)).1 diagnosisTemplate
  simp only [scenarioClassifyOn, hrg, hs1, hs2]
  exact finishCleanup_runs node sc _

theorem scenarioIdentifyOn_cleanup (pe : String → ProcResult) (http : String → HttpOutcome)
    (node : Option String) (sc : Scenario) (log1 : List String)
    (hget : ∀ pn, (pe ("kubectl get pod " ++ pn)).returncode = 0)
    (hllm : ∀ ctx tmpl, ∃ s, reason_llm http ctx tmpl = Except.ok (PyVal.str s)) :
    cleanupCmd sc ∈ (scenarioIdentifyOn pe http node sc log1).1 ∧
    (scenarioIdentifyOn pe http node sc log1).2 = none := by
  rcases hpod : get_pod_name (fun _ => tolerantOut (pe "kubectl get pods -o name"))
      sc.pod_name_pattern with _ | pn
  · simp only [scenarioIdentifyOn, hpod]
    exact finishCleanup_runs node sc _
  · simp only [scenarioIdentifyOn, hpod]
    exact scenarioClassifyOn_cleanup pe http node sc pn _ (hget pn) hllm

theorem scenarioApplyOn_cleanup (pe : String → ProcResult) (http : String → HttpOutcome)
    (node : Option String) (sc : Scenario) (log0 : List String)
    (happly : (pe ("kubectl apply -f scenarios/" ++ sc.manifest_filename)).returncode = 0)
    (hget : ∀ pn, (pe ("kubectl get pod " ++ pn)).returncode = 0)
    (hllm : ∀ ctx tmpl, ∃ s, reason_llm http ctx tmpl = Except.ok (PyVal.str s)) :
    cleanupCmd sc ∈ (scenarioApplyOn pe http node sc log0).1 ∧
    (scenarioApplyOn pe http node sc log0).2 = none := by
  have hra : run_command (pe ("kubectl apply -f scenarios/" ++ sc.manifest_filename)) true
      = Except.ok (pyStrip (pe ("kubectl apply -f scenarios/" ++ sc.manifest_filename)).stdout) := by
    simp [run_command, subprocess_run, happly]
  simp only [scenarioApplyOn, hra]
  exact scenarioIdentifyOn_cleanup pe http node sc _ hget hllm

/-- C8 (amended): the cleanup deletion command is executed whenever the
scenario iteration is not skipped by the taint gate and no strict step
raises: the pre-run command (if any), the apply command and the
`kubectl get pod` classification command exit zero, and both model calls
return a string (a transport failure also satisfies this, since `call_llm`
converts it to error text).  In particular, failing to identify a pod still
reaches cleanup.  The claim's unconditional form is false: `main` has no
try/finally, so a raising failure in a prior state skips cleanup — see the
counterexample. -/
theorem c8_cleanup_reached (pe : String → ProcResult) (http : String → HttpOutcome)
    (node : Option String) (sid : String) (sc : Scenario)
    (hskip : ¬(occursIn "taint".data sid.data = true ∧ node = none))
    (hpre : ∀ c, sc.pre_run_command = some c → (pe (fmtNode c node)).returncode = 0)
    (happly : (pe ("kubectl apply -f scenarios/" ++ sc.manifest_filename)).returncode = 0)
    (hget : ∀ pn, (pe ("kubectl get pod " ++ pn)).returncode = 0)
    (hllm : ∀ ctx tmpl, ∃ s, reason_llm http ctx tmpl = Except.ok (PyVal.str s)) :
    cleanupCmd sc ∈ (runScenarioBody pe http node sid sc).1 ∧
    (runScenarioBody pe http node sid sc).2 = none := by
  rw [runScenarioBody, if_neg hskip]
  rcases hprc : sc.pre_run_command with _ | c
  · exact scenarioApplyOn_cleanup pe http node sc [] happly hget hllm
  · have hrc : run_command (pe (fmtNode c node)) true
        = Except.ok (pyStrip (pe (fmtNode c node)).stdout) := by
      simp [run_command, subprocess_run, hpre c hprc]
    simp only [hrc]
    exact scenarioApplyOn_cleanup pe http node sc [fmtNode c node] happly hget hllm

/-- C8 witness: with every command succeeding and the model endpoint down
(errors returned as text), scenario 1 reaches its deletion command. -/
theorem c8_cleanup_reached_witness :
    cleanupCmd scenario1 ∈ (runScenarioBody peAllOk httpDown none "1_insufficient_cpu" scenario1).1 :=
  (c8_cleanup_reached peAllOk httpDown none "1_insufficient_cpu" scenario1
    (by decide)
    (by
      intro c hc
      have hc' : (none : Option String) = some c := hc
      nomatch hc')
    (by decide)
    (fun pn => rfl)
    (fun ctx tmpl => ⟨"API Request Error: connection refused", rfl⟩)).1

/-- C8 counterexample: scenario 1 with an apply command that exits
non-zero.  The strict `run_command` raises, the iteration aborts, and the
issued-command log contains only the apply command — the cleanup deletion
command is never executed, contradicting the claim that cleanup always runs
regardless of failures in prior states. -/
theorem c8_counterexample :
    SCENARIOS.head? = some ("1_insufficient_cpu", scenario1) ∧
    (runScenarioBody peApplyFails httpDown none "1_insufficient_cpu" scenario1).1
      = ["kubectl apply -f scenarios/1_insufficient_cpu.yaml"] ∧
    cleanupCmd scenario1 ∉ (runScenarioBody peApplyFails httpDown none "1_insufficient_cpu" scenario1).1 := by
  refine ⟨rfl, ?_, ?_⟩
  · decide
  · decide
